import Mathlib

/-!
Verification of the data-consistency core of the llm-analysis-server
repository: task CRUD with human-readable code allocation, directed
parent/child link maintenance, the task-status schema migration, and the
artifact versioning / provenance / export subsystem.

The SQLite-backed store is modelled as an explicit `Store` record of row
lists; each service method of `DatabaseService` / `TasksService` becomes a
state-passing function returning `Except` for the `throw` paths.  String
primitives used by the SQL statements (`substr`/`instr`/`CAST`, `LIKE`,
`padStart`, `trim`) are embedded as executable functions on character
lists so that every definition evaluates by `decide`.
-/

set_option maxRecDepth 4000

deriving instance DecidableEq for Except

/-- Whitespace test covering the characters the repository's data can
contain; models the characters JS `trim` and SQLite `CAST` skip. -/
def isWsp (c : Char) : Bool :=
  c = ' ' || c = '\t' || c = '\n' || c = '\r'

/-- JS `String.prototype.trim` on the underlying character list. -/
def trimChars (cs : List Char) : List Char :=
  ((cs.dropWhile isWsp).reverse.dropWhile isWsp).reverse

/-- JS `String.prototype.trim`. -/
def strTrim (s : String) : String :=
  String.mk (trimChars s.data)

/-- ASCII lower-casing, as used by SQLite's case-insensitive `LIKE`. -/
def asciiLower (c : Char) : Char :=
  if 'A' ≤ c ∧ c ≤ 'Z' then Char.ofNat (c.toNat + 32) else c

/-- SQLite `code LIKE 'TASK-%'` (ASCII case-insensitive). -/
def likeTaskCode (s : String) : Bool :=
  (s.data.take 5).map asciiLower == "task-".data

/-- Everything after the first `'-'` of the list (empty if none). -/
def afterFirstDash : List Char → List Char
  | [] => []
  | c :: rest => if c = '-' then rest else afterFirstDash rest

/-- SQLite `substr(code, instr(code, '-') + 1)`: the characters after the
first dash, or the whole string when no dash occurs (`instr` = 0). -/
def codeSuffixChars (s : String) : List Char :=
  if s.data.contains '-' then afterFirstDash s.data else s.data

/-- Numeric value of a digit run. -/
def digitsVal (cs : List Char) : Nat :=
  cs.foldl (fun acc c => acc * 10 + (c.toNat - 48)) 0

/-- Longest digit run at the front of the list. -/
def leadingDigits : List Char → List Char
  | [] => []
  | c :: rest => if c.isDigit then c :: leadingDigits rest else []

/-- SQLite `CAST(text AS INTEGER)`: skip leading whitespace, optional
sign, then the longest digit run (0 when none). -/
def sqlCastInt (cs : List Char) : Int :=
  match cs.dropWhile isWsp with
  | '-' :: rest => - (digitsVal (leadingDigits rest) : Int)
  | '+' :: rest => (digitsVal (leadingDigits rest) : Int)
  | other => (digitsVal (leadingDigits other) : Int)

/-- JS `String(n).padStart(4, '0')` applied to an already rendered
string. -/
def padStart4 (s : String) : String :=
  String.mk (List.replicate (4 - s.data.length) '0') ++ s

/-- Deduplication worker carrying the set of already seen elements. -/
def dedupFirstAux [DecidableEq α] (seen : List α) : List α → List α
  | [] => []
  | a :: l =>
      if a ∈ seen then dedupFirstAux seen l
      else a :: dedupFirstAux (a :: seen) l

/-- JS `Array.from(new Set(xs))`: deduplicate keeping first occurrences. -/
def dedupFirst [DecidableEq α] (l : List α) : List α :=
  dedupFirstAux [] l

/-- JS `Array.prototype.join(', ')` over rendered numbers. -/
def joinIds : List Int → String
  | [] => ""
  | [x] => toString x
  | x :: xs => toString x ++ ", " ++ joinIds xs

/-- `Array.prototype.join(', ')` of string lists. -/
def joinStrs : List String → String
  | [] => ""
  | [x] => x
  | x :: xs => x ++ ", " ++ joinStrs xs

/-- `tasks` table row. -/
structure TaskRow where
  id : Int
  type : String
  title : String
  description : String
  status : String
  code : String
  createdAt : Nat
deriving Repr, DecidableEq

/-- `task_links` table row: a directed parent → child edge. -/
structure LinkRow where
  parentId : Int
  childId : Int
deriving Repr, DecidableEq

/-- `artifacts` table row. -/
structure ArtifactRow where
  id : Int
  title : String
  kind : String
  category : String
  createdAt : Nat
deriving Repr, DecidableEq

/-- `artifact_versions` table row. -/
structure VersionRow where
  id : Int
  artifactId : Int
  version : Nat
  format : String
  content : String
  renderUrl : Option String
  notes : Option String
  createdAt : Nat
deriving Repr, DecidableEq

/-- `artifact_sources` table row. -/
structure SourceRow where
  id : Int
  artifactId : Int
  sourceType : String
  sourceId : Option Int
  description : Option String
  createdAt : Nat
deriving Repr, DecidableEq

/-- `artifact_exports` table row. -/
structure ExportRow where
  id : Int
  artifactVersionId : Int
  format : String
  content : Option String
  location : Option String
  createdAt : Nat
deriving Repr, DecidableEq

/-- The SQLite database: table contents plus the AUTOINCREMENT counters
and a logical clock standing in for `CURRENT_TIMESTAMP`. -/
structure Store where
  tasks : List TaskRow
  links : List LinkRow
  artifacts : List ArtifactRow
  versions : List VersionRow
  sources : List SourceRow
  exports : List ExportRow
  nextTaskId : Int
  nextArtifactId : Int
  nextVersionId : Int
  nextSourceId : Int
  nextExportId : Int
  clock : Nat
deriving Repr, DecidableEq

/-- A freshly migrated, empty database. -/
def emptyStore : Store :=
  { tasks := [], links := [], artifacts := [], versions := [], sources := [],
    exports := [], nextTaskId := 1, nextArtifactId := 1, nextVersionId := 1,
    nextSourceId := 1, nextExportId := 1, clock := 0 }

/-- `CAST(substr(code, instr(code, '-') + 1) AS INTEGER)` for one code. -/
def taskCodeNumber (code : String) : Int :=
  sqlCastInt (codeSuffixChars code)

/-- The numeric suffixes of all codes matching `LIKE 'TASK-%'`. -/
def taskSuffixInts (ts : List TaskRow) : List Int :=
  (ts.filter (fun t => likeTaskCode t.code)).map (fun t => taskCodeNumber t.code)

/-- SQL `MAX` over a column: `none` on the empty set. -/
def sqlMaxInt : List Int → Option Int
  | [] => none
  | x :: xs => some (xs.foldl max x)

/-- `COALESCE(MAX(...), 0) + 1` of `createTask`'s allocation query. -/
def nextTaskNumber (ts : List TaskRow) : Int :=
  (sqlMaxInt (taskSuffixInts ts)).getD 0 + 1

/-- The code the next `createTask` call will assign. -/
def allocateTaskCode (ts : List TaskRow) : String :=
  "TASK-" ++ padStart4 (toString (nextTaskNumber ts))

/-- `DatabaseService.createTask`: allocate the next code, insert the row,
return the inserted row (with empty relation arrays at the caller). -/
def createTask (s : Store) (type title description status : String) :
    TaskRow × Store :=
  let code := allocateTaskCode s.tasks
  let row : TaskRow :=
    { id := s.nextTaskId, type := type, title := title,
      description := description, status := status, code := code,
      createdAt := s.clock }
  (row, { s with tasks := s.tasks ++ [row], nextTaskId := s.nextTaskId + 1,
                 clock := s.clock + 1 })

/-- `DatabaseService.deleteTask`: 404 when the id is absent, otherwise
remove every edge touching the id and then the task row.  No other table
is touched. -/
def deleteTask (s : Store) (id : Int) : Except String Unit × Store :=
  if s.tasks.any (fun t => t.id == id) then
    (Except.ok (),
     { s with
       links := s.links.filter
         (fun l => decide (l.parentId ≠ id ∧ l.childId ≠ id)),
       tasks := s.tasks.filter (fun t => decide (t.id ≠ id)) })
  else
    (Except.error "Задача не найдена", s)

/-- `INSERT OR IGNORE INTO task_links`: the pair is the primary key, so
an already-present pair is a no-op. -/
def insertIgnoreLink (ls : List LinkRow) (p c : Int) : List LinkRow :=
  if ls.any (fun l => l.parentId == p && l.childId == c) then ls
  else ls ++ [⟨p, c⟩]

/-- The `parents` loop of `setTaskRelations`: insert `(parentId, taskId)`
for each listed id, skipping self-references. -/
def addParentLinks (taskId : Int) : List Int → List LinkRow → List LinkRow
  | [], ls => ls
  | p :: ps, ls =>
      addParentLinks taskId ps
        (if p == taskId then ls else insertIgnoreLink ls p taskId)

/-- The `children` loop of `setTaskRelations`: insert `(taskId, childId)`
for each listed id, skipping self-references. -/
def addChildLinks (taskId : Int) : List Int → List LinkRow → List LinkRow
  | [], ls => ls
  | c :: cs, ls =>
      addChildLinks taskId cs
        (if c == taskId then ls else insertIgnoreLink ls taskId c)

/-- `DatabaseService.setTaskRelations`: each supplied direction first
deletes all existing edges of that direction for `taskId`, then inserts
the listed edges; an omitted (`undefined`) direction is untouched. -/
def setTaskRelations (s : Store) (taskId : Int)
    (parents children : Option (List Int)) : Store :=
  let s1 :=
    match parents with
    | none => s
    | some ps =>
      let cleared := s.links.filter (fun l => !(l.childId == taskId))
      { s with links := addParentLinks taskId ps cleared }
  match children with
  | none => s1
  | some cs =>
    let cleared := s1.links.filter (fun l => !(l.parentId == taskId))
    { s1 with links := addChildLinks taskId cs cleared }

/-- First-match lookup in an association list, modelling a TS
`Record<string, ...>` literal indexed by a key. -/
def lookupStr : List (String × String) → String → Option String
  | [], _ => none
  | (k, v) :: rest, key => if k = key then some v else lookupStr rest key

/-- The alias table of `normalizeCategory`. -/
def NORMALIZE_MAP : List (String × String) :=
  [("use_case_diagram", "use_case_diagram"),
   ("USE_CASE_DIAGRAM", "use_case_diagram"),
   ("er_diagram", "er_diagram"),
   ("entity_diagram", "er_diagram"),
   ("ENTITY_DIAGRAM", "er_diagram"),
   ("user_scenario", "user_scenario"),
   ("USER_SCENARIO", "user_scenario"),
   ("functional_requirement", "functional_requirement"),
   ("FUNCTIONAL_REQUIREMENTS", "functional_requirement"),
   ("non_functional_requirement", "non_functional_requirement"),
   ("NON_FUNCTIONAL_REQUIREMENTS", "non_functional_requirement"),
   ("acceptance_criteria", "acceptance_criteria"),
   ("ACCEPTANCE_CRITERIA", "acceptance_criteria")]

/-- The seven canonical lowercase category values stored in the
`artifacts.category` column. -/
def CANONICAL_CATEGORIES : List String :=
  ["use_case_diagram", "er_diagram", "entity_diagram", "user_scenario",
   "functional_requirement", "non_functional_requirement",
   "acceptance_criteria"]

/-- `DatabaseService.normalizeCategory`: map an accepted alias to its
canonical internal value, rejecting anything else. -/
def normalizeCategory (category : String) : Except String String :=
  match lookupStr NORMALIZE_MAP category with
  | some v => Except.ok v
  | none =>
      Except.error ("Неподдерживаемая категория артефакта: " ++ category)

/-- The external projection table of `toExternalCategory`. -/
def EXTERNAL_MAP : List (String × String) :=
  [("use_case_diagram", "USE_CASE_DIAGRAM"),
   ("er_diagram", "ENTITY_DIAGRAM"),
   ("entity_diagram", "ENTITY_DIAGRAM"),
   ("user_scenario", "USER_SCENARIO"),
   ("functional_requirement", "FUNCTIONAL_REQUIREMENTS"),
   ("non_functional_requirement", "NON_FUNCTIONAL_REQUIREMENTS"),
   ("acceptance_criteria", "ACCEPTANCE_CRITERIA")]

/-- `DatabaseService.toExternalCategory`: project a stored category to
the external uppercase vocabulary, passing unknown values through. -/
def toExternalCategory (category : String) : String :=
  (lookupStr EXTERNAL_MAP category).getD category

/-- JS truthiness of an optional id (`if (input.id)`): defined and
non-zero. -/
def optTruthyInt : Option Int → Bool
  | some i => i != 0
  | none => false

/-- JS truthiness of `o?.trim()` for an optional string. -/
def optTruthyTrim : Option String → Bool
  | some v => strTrim v != ""
  | none => false

/-- The id-list preprocessing of `attachArtifactSources`: keep positive
finite ids, deduplicate keeping first occurrences. -/
def positiveIds (l : Option (List Int)) : List Int :=
  dedupFirst ((l.getD []).filter (fun i => decide (0 < i)))

/-- `SELECT id FROM tasks WHERE id = ?` non-emptiness. -/
def taskIdExists (ts : List TaskRow) (i : Int) : Bool :=
  ts.any (fun t => t.id == i)

/-- The source rows of one artifact, in insertion order. -/
def sourcesFor (s : Store) (aid : Int) : List SourceRow :=
  s.sources.filter (fun r => r.artifactId == aid)

/-- The row an `INSERT INTO artifact_sources` would produce now. -/
def mkSourceRow (s : Store) (aid : Int) (sourceType : String)
    (sourceId : Option Int) (description : Option String) : SourceRow :=
  { id := s.nextSourceId, artifactId := aid, sourceType := sourceType,
    sourceId := sourceId, description := description, createdAt := s.clock }

/-- Execute one `INSERT INTO artifact_sources`. -/
def appendSource (s : Store) (aid : Int) (sourceType : String)
    (sourceId : Option Int) (description : Option String) : Store :=
  { s with sources := s.sources ++ [mkSourceRow s aid sourceType sourceId description],
           nextSourceId := s.nextSourceId + 1, clock := s.clock + 1 }

/-- The task loop of `attachArtifactSources`. -/
def insertTaskSources (aid : Int) : List Int → Store → Store
  | [], s => s
  | i :: ids, s => insertTaskSources aid ids (appendSource s aid "task" (some i) none)

/-- The message loop of `attachArtifactSources`. -/
def insertMessageSources (aid : Int) : List Int → Store → Store
  | [], s => s
  | i :: ids, s =>
      insertMessageSources aid ids (appendSource s aid "message" (some i) none)

/-- Description text of the synthetic manual provenance row. -/
def MANUAL_SOURCE_DESCRIPTION : String := "Сохранено без явной ссылки на источник"

/-- `DatabaseService.attachArtifactSources`: dedupe and positivity-filter
both id lists; if any requested task id does not resolve, fail naming the
missing ids before anything is written; otherwise insert a source row per
task id and per message id; when both lists are effectively empty and the
artifact has no source rows yet, insert one synthetic manual row. -/
def attachArtifactSources (s : Store) (artifactId : Int)
    (taskIds messageIds : Option (List Int)) : Except String Unit × Store :=
  if positiveIds taskIds ≠ [] ∧
      (positiveIds taskIds).filter (fun i => !(taskIdExists s.tasks i)) ≠ [] then
    (Except.error ("Задачи с такими ID не найдены: " ++
       joinIds ((positiveIds taskIds).filter (fun i => !(taskIdExists s.tasks i)))),
     s)
  else
    if positiveIds taskIds = [] ∧ positiveIds messageIds = [] then
      if (sourcesFor (insertMessageSources artifactId (positiveIds messageIds)
            (insertTaskSources artifactId (positiveIds taskIds) s))
            artifactId).length = 0 then
        (Except.ok (),
         appendSource
           (insertMessageSources artifactId (positiveIds messageIds)
             (insertTaskSources artifactId (positiveIds taskIds) s))
           artifactId "manual" none (some MANUAL_SOURCE_DESCRIPTION))
      else
        (Except.ok (),
         insertMessageSources artifactId (positiveIds messageIds)
           (insertTaskSources artifactId (positiveIds taskIds) s))
    else
      (Except.ok (),
       insertMessageSources artifactId (positiveIds messageIds)
         (insertTaskSources artifactId (positiveIds taskIds) s))

/-- `DatabaseService.upsertArtifactRecord`: with a truthy `id`, require
the artifact to exist and overwrite title/kind/category in place;
otherwise insert a new artifact row. -/
def upsertArtifactRecord (s : Store) (idOpt : Option Int)
    (title kind category : String) : Except String Int × Store :=
  if optTruthyInt idOpt then
    if s.artifacts.any (fun a => a.id == idOpt.getD 0) then
      (Except.ok (idOpt.getD 0),
       { s with artifacts := s.artifacts.map (fun a =>
           if a.id == idOpt.getD 0 then
             { a with title := title, kind := kind, category := category }
           else a) })
    else (Except.error ("Артефакт " ++ toString (idOpt.getD 0) ++ " не найден"), s)
  else
    let row : ArtifactRow :=
      { id := s.nextArtifactId, title := title, kind := kind,
        category := category, createdAt := s.clock }
    (Except.ok s.nextArtifactId,
     { s with artifacts := s.artifacts ++ [row],
              nextArtifactId := s.nextArtifactId + 1, clock := s.clock + 1 })

/-- `COALESCE(MAX(version), 0)` over one artifact's versions. -/
def maxVersionFor (vs : List VersionRow) (aid : Int) : Nat :=
  ((vs.filter (fun v => v.artifactId == aid)).map (fun v => v.version)).foldl
    max 0

/-- The version numbers of one artifact, in insertion order. -/
def versionNums (vs : List VersionRow) (aid : Int) : List Nat :=
  (vs.filter (fun v => v.artifactId == aid)).map (fun v => v.version)

/-- `ORDER BY version DESC, created_at DESC LIMIT 1`: keep the
lexicographically later of two rows. -/
def pickLater (a b : VersionRow) : VersionRow :=
  if b.version > a.version then b
  else if b.version = a.version ∧ b.createdAt > a.createdAt then b
  else a

/-- The version row the latest-snapshot subquery selects. -/
def latestVersionRow (vs : List VersionRow) (aid : Int) : Option VersionRow :=
  match vs.filter (fun v => v.artifactId == aid) with
  | [] => none
  | x :: xs => some (xs.foldl pickLater x)

/-- The `ArtifactSnapshot` projection. -/
structure ArtifactSnapshot where
  artifactId : Int
  title : String
  kind : String
  category : String
  version : Nat
  format : String
  content : String
  renderUrl : Option String
  createdAt : Nat
deriving Repr, DecidableEq, Inhabited

/-- Build the snapshot of one artifact row and one version row. -/
def mkSnapshot (a : ArtifactRow) (v : VersionRow) : ArtifactSnapshot :=
  { artifactId := a.id, title := a.title, kind := a.kind,
    category := toExternalCategory a.category, version := v.version,
    format := v.format, content := v.content, renderUrl := v.renderUrl,
    createdAt := v.createdAt }

/-- `DatabaseService.getLatestArtifactSnapshot`: the artifact joined with
its highest version (none when the artifact or all versions are absent). -/
def getLatestArtifactSnapshot (s : Store) (aid : Int) : Option ArtifactSnapshot :=
  match s.artifacts.find? (fun a => a.id == aid), latestVersionRow s.versions aid with
  | some a, some v => some (mkSnapshot a v)
  | _, _ => none

/-- `ORDER BY createdAt DESC, artifactId DESC` comparison. -/
def snapBefore (a b : ArtifactSnapshot) : Bool :=
  decide (b.createdAt < a.createdAt ∨
    (a.createdAt = b.createdAt ∧ b.artifactId ≤ a.artifactId))

/-- Stable insertion into a list sorted by `snapBefore`. -/
def insertSortedSnap (x : ArtifactSnapshot) :
    List ArtifactSnapshot → List ArtifactSnapshot
  | [] => [x]
  | y :: ys => if snapBefore y x then y :: insertSortedSnap x ys else x :: y :: ys

/-- Insertion sort by `snapBefore`. -/
def sortSnaps : List ArtifactSnapshot → List ArtifactSnapshot
  | [] => []
  | x :: xs => insertSortedSnap x (sortSnaps xs)

/-- `DatabaseService.listLatestArtifacts`: each artifact joined with its
highest version, ordered by version creation time then artifact id, both
descending. -/
def listLatestArtifacts (s : Store) : List ArtifactSnapshot :=
  sortSnaps (s.artifacts.filterMap (fun a =>
    (latestVersionRow s.versions a.id).map (fun v => mkSnapshot a v)))

/-- Input of `saveArtifactWithVersion`. -/
structure SaveArtifactInput where
  artifactId : Option Int := none
  title : String
  kind : String
  category : String
  format : String
  content : String
  renderUrl : Option String := none
  note : Option String := none
  sourceTaskIds : Option (List Int) := none
  sourceMessageIds : Option (List Int) := none
deriving Repr, DecidableEq

/-- The version row `saveArtifactWithVersion` inserts: numbered
`COALESCE(MAX(version), 0) + 1` for its artifact. -/
def mkVersionRow (s : Store) (aid : Int) (format content : String)
    (renderUrl note : Option String) : VersionRow :=
  { id := s.nextVersionId, artifactId := aid,
    version := maxVersionFor s.versions aid + 1, format := format,
    content := content, renderUrl := renderUrl, notes := note,
    createdAt := s.clock }

/-- Execute the `INSERT INTO artifact_versions`. -/
def insertVersionRow (s : Store) (aid : Int) (format content : String)
    (renderUrl note : Option String) : Store :=
  { s with versions := s.versions ++ [mkVersionRow s aid format content renderUrl note],
           nextVersionId := s.nextVersionId + 1, clock := s.clock + 1 }

/-- `DatabaseService.saveArtifactWithVersion`: validate content and
title, normalize the category, upsert the artifact row, append a version
row numbered `max(existing) + 1`, attach sources, and return the fresh
latest snapshot. -/
def saveArtifactWithVersion (s : Store) (input : SaveArtifactInput) :
    Except String ArtifactSnapshot × Store :=
  if strTrim input.content = "" then
    (Except.error "Содержимое артефакта обязательно", s)
  else if strTrim input.title = "" then
    (Except.error "Название артефакта обязательно", s)
  else
    match normalizeCategory input.category with
    | Except.error e => (Except.error e, s)
    | Except.ok normalized =>
      match upsertArtifactRecord s input.artifactId (strTrim input.title)
          input.kind normalized with
      | (Except.error e, s1) => (Except.error e, s1)
      | (Except.ok aid, s1) =>
        match attachArtifactSources
            (insertVersionRow s1 aid input.format (strTrim input.content)
              input.renderUrl input.note)
            aid input.sourceTaskIds input.sourceMessageIds with
        | (Except.error e, s3) => (Except.error e, s3)
        | (Except.ok _, s3) =>
          match getLatestArtifactSnapshot s3 aid with
          | none => (Except.error "Не удалось прочитать сохраненный артефакт", s3)
          | some snap => (Except.ok snap, s3)

/-- `hasContent/hasLocation ? trimmed : null` of `addArtifactExport`. -/
def trimmedOrNull (o : Option String) : Option String :=
  if optTruthyTrim o then o.map strTrim else none

/-- The export row an `addArtifactExport` insert produces. -/
def mkExportRow (s : Store) (versionId : Int) (format : String)
    (content location : Option String) : ExportRow :=
  { id := s.nextExportId, artifactVersionId := versionId, format := format,
    content := trimmedOrNull content, location := trimmedOrNull location,
    createdAt := s.clock }

/-- The store after an `addArtifactExport` insert. -/
def exportInserted (s : Store) (versionId : Int) (format : String)
    (content location : Option String) : Store :=
  { s with exports := s.exports ++ [mkExportRow s versionId format content location],
           nextExportId := s.nextExportId + 1, clock := s.clock + 1 }

/-- `DatabaseService.addArtifactExport`: reject when both content and
location are blank after trimming; 404 when the version id does not
resolve; otherwise insert one export row with the trimmed values and
return its generated id. -/
def addArtifactExport (s : Store) (versionId : Int) (format : String)
    (content location : Option String) : Except String Int × Store :=
  if !(optTruthyTrim content || optTruthyTrim location) then
    (Except.error "Экспорт должен содержать данные или ссылку на хранилище", s)
  else if s.versions.any (fun v => v.id == versionId) then
    (Except.ok s.nextExportId, exportInserted s versionId format content location)
  else
    (Except.error ("Версия артефакта " ++ toString versionId ++ " не найдена"), s)

/-- JS truthiness of an optional string field (`if (updates.type)`). -/
def optTruthyStr : Option String → Bool
  | some v => v != ""
  | none => false

/-- Partial field set of `updateTask`. -/
structure TaskUpdates where
  type : Option String := none
  title : Option String := none
  description : Option String := none
  status : Option String := none
deriving Repr, DecidableEq

/-- `Object.keys(updates).length > 0`. -/
def hasAnyKey (u : TaskUpdates) : Bool :=
  u.type.isSome || u.title.isSome || u.description.isSome || u.status.isSome

/-- The `UPDATE tasks SET ... WHERE id = ?` row rewrite: each truthy
field overwrites; `code` and `created_at` are never in the SET list. -/
def applyUpdates (u : TaskUpdates) (t : TaskRow) : TaskRow :=
  { t with
    type := if optTruthyStr u.type then u.type.getD t.type else t.type,
    description :=
      if optTruthyStr u.description then u.description.getD t.description
      else t.description,
    title := if optTruthyStr u.title then u.title.getD t.title else t.title,
    status := if optTruthyStr u.status then u.status.getD t.status
      else t.status }

/-- Task list after the `UPDATE` statement. -/
def updatedTasks (s : Store) (id : Int) (u : TaskUpdates) : List TaskRow :=
  s.tasks.map (fun t => if t.id == id then applyUpdates u t else t)

/-- `DatabaseService.updateTask`: reject an empty SET list, run the
update, then re-select the row (not-found error when absent). -/
def updateTask (s : Store) (id : Int) (u : TaskUpdates) :
    Except String TaskRow × Store :=
  if !(optTruthyStr u.type || optTruthyStr u.description ||
       optTruthyStr u.title || optTruthyStr u.status) then
    (Except.error "Нет полей для обновления", s)
  else
    match (updatedTasks s id u).find? (fun t => t.id == id) with
    | some t => (Except.ok t, { s with tasks := updatedTasks s id u })
    | none => (Except.error "Задача не найдена", { s with tasks := updatedTasks s id u })

/-- `{id, code, title}` relation summary. -/
structure TaskSummary where
  id : Int
  code : String
  title : String
deriving Repr, DecidableEq

/-- The `Task` projection returned to callers. -/
structure TaskFull where
  id : Int
  type : String
  title : String
  description : String
  status : String
  code : String
  createdAt : Nat
  parents : List TaskSummary
  children : List TaskSummary
deriving Repr, DecidableEq

/-- Parent summaries of a task (join over incoming edges). -/
def taskParents (s : Store) (id : Int) : List TaskSummary :=
  (s.links.filter (fun l => l.childId == id)).filterMap (fun l =>
    (s.tasks.find? (fun t => t.id == l.parentId)).map
      (fun t => ⟨t.id, t.code, t.title⟩))

/-- Child summaries of a task (join over outgoing edges). -/
def taskChildren (s : Store) (id : Int) : List TaskSummary :=
  (s.links.filter (fun l => l.parentId == id)).filterMap (fun l =>
    (s.tasks.find? (fun t => t.id == l.childId)).map
      (fun t => ⟨t.id, t.code, t.title⟩))

/-- `DatabaseService.getTaskWithRelations`. -/
def getTaskWithRelations (s : Store) (id : Int) : Option TaskFull :=
  (s.tasks.find? (fun t => t.id == id)).map (fun t =>
    { id := t.id, type := t.type, title := t.title,
      description := t.description, status := t.status, code := t.code,
      createdAt := t.createdAt, parents := taskParents s id,
      children := taskChildren s id })

/-- Error taxonomy of `TasksService`: `BadRequestException`,
`NotFoundException`, and an unmapped `Error` surfacing as a 500. -/
inductive SvcError where
  | badRequest (msg : String)
  | notFound (msg : String)
  | internal (msg : String)
deriving Repr, DecidableEq

/-- JSON payload of `TasksService.update` (a `none` field is an absent
JSON key). -/
structure UpdatePayload where
  type : Option String := none
  title : Option String := none
  description : Option String := none
  status : Option String := none
  parentIds : Option (List Int) := none
  childIds : Option (List Int) := none
deriving Repr, DecidableEq

/-- The three task types. -/
def TASK_TYPES : List String := ["epic", "task", "subtask"]

/-- The canonical five-value status enumeration. -/
def TASK_STATUSES : List String :=
  ["Открыта", "Требует уточнения", "Готова к продолжению",
   "Декомпозирована", "Выполнена"]

/-- `TasksService.parseType` on a provided value. -/
def parseTypeField (v : String) : Except SvcError String :=
  if v = "" then Except.error (SvcError.badRequest "Тип задачи обязателен")
  else if TASK_TYPES.contains v then Except.ok v
  else Except.error (SvcError.badRequest
    ("Неизвестный тип задачи: " ++ v ++ ". Допустимо: " ++ joinStrs TASK_TYPES))

/-- `TasksService.parseStatus` on a provided value, no fallback. -/
def parseStatusField (v : String) : Except SvcError String :=
  if v = "" then Except.error (SvcError.badRequest "Статус задачи обязателен")
  else if TASK_STATUSES.contains v then Except.ok v
  else Except.error (SvcError.badRequest
    ("Неизвестный статус задачи: " ++ v ++ ". Допустимо: " ++
      joinStrs TASK_STATUSES))

/-- `TasksService.parseTitle`. -/
def parseTitleField (v : String) : Except SvcError String :=
  if strTrim v = "" then
    Except.error (SvcError.badRequest "Название задачи обязательно")
  else Except.ok (strTrim v)

/-- `TasksService.parseDescription`. -/
def parseDescriptionField (v : String) : Except SvcError String :=
  if strTrim v = "" then
    Except.error (SvcError.badRequest "Описание задачи обязательно")
  else Except.ok (strTrim v)

/-- `TasksService.parseIdArray`: keep positive finite numbers,
deduplicate. -/
def parseIdArray (l : List Int) : List Int :=
  dedupFirst (l.filter (fun i => decide (0 < i)))

/-- `TasksService.ensureIdsExist`. -/
def ensureIdsExist (s : Store) (ids : List Int) : Except SvcError Unit :=
  if ids.isEmpty then Except.ok ()
  else if (ids.filter (fun i => !(taskIdExists s.tasks i))).isEmpty then
    Except.ok ()
  else
    Except.error (SvcError.badRequest ("Задачи с такими ID не найдены: " ++
      joinIds (ids.filter (fun i => !(taskIdExists s.tasks i)))))

/-- Parse one optional payload field. -/
def optParse (f : String → Except SvcError String) :
    Option String → Except SvcError (Option String)
  | none => Except.ok none
  | some v => (f v).map some

/-- The field-parsing phase of `TasksService.update`, in source order. -/
def buildUpdates (p : UpdatePayload) : Except SvcError TaskUpdates := do
  let ut ← optParse parseTypeField p.type
  let uti ← optParse parseTitleField p.title
  let ud ← optParse parseDescriptionField p.description
  let us ← optParse parseStatusField p.status
  pure { type := ut, title := uti, description := ud, status := us }

/-- `TasksService.update`: parse supplied fields, reject a payload with
no fields and no relation lists, check referenced ids, run the store
update, replace relations, and re-read the task; only the store error
`Задача не найдена` is mapped to NotFound, anything else surfaces
unmapped. -/
def tasksServiceUpdate (s : Store) (id : Int) (p : UpdatePayload) :
    Except SvcError TaskFull × Store :=
  match buildUpdates p with
  | Except.error e => (Except.error e, s)
  | Except.ok u =>
    if hasAnyKey u = false ∧ p.parentIds = none ∧ p.childIds = none then
      (Except.error (SvcError.badRequest "Нет данных для обновления"), s)
    else
      match ensureIdsExist s ((p.parentIds.map parseIdArray).getD [] ++
          (p.childIds.map parseIdArray).getD []) with
      | Except.error e => (Except.error e, s)
      | Except.ok _ =>
        match updateTask s id u with
        | (Except.error msg, s1) =>
          if msg = "Задача не найдена" then
            (Except.error (SvcError.notFound
              ("Задача " ++ toString id ++ " не найдена")), s1)
          else (Except.error (SvcError.internal msg), s1)
        | (Except.ok _, s1) =>
          match getTaskWithRelations
              (setTaskRelations s1 id (p.parentIds.map parseIdArray)
                (p.childIds.map parseIdArray)) id with
          | none =>
            (Except.error (SvcError.notFound
              ("Задача " ++ toString id ++ " не найдена")),
             setTaskRelations s1 id (p.parentIds.map parseIdArray)
               (p.childIds.map parseIdArray))
          | some t =>
            (Except.ok t,
             setTaskRelations s1 id (p.parentIds.map parseIdArray)
               (p.childIds.map parseIdArray))

/-- The `CASE status ... END` value-remapping of
`ensureTaskStatusConstraint`: eight listed legacy labels map to their
canonical label, anything else falls to the `ELSE` default. -/
def remapStatus (st : String) : String :=
  if st = "backlog" then "Открыта"
  else if st = "in_progress" then "Готова к продолжению"
  else if st = "done" then "Выполнена"
  else if st = "Open" then "Открыта"
  else if st = "Drafted" then "Декомпозирована"
  else if st = "RequiresClarification" then "Требует уточнения"
  else if st = "Ready" then "Готова к продолжению"
  else if st = "Done" then "Выполнена"
  else "Открыта"

/-- The `INSERT INTO tasks ... SELECT ... FROM tasks_old` copy of the
status migration: every row is copied with id, type, title, description,
code and created timestamp preserved and status rewritten. -/
def migrateTaskRows (rows : List TaskRow) : List TaskRow :=
  rows.map (fun t => { t with status := remapStatus t.status })

/-- The `WHEN` labels of the remapping `CASE`. -/
def OLD_STATUS_KEYS : List String :=
  ["backlog", "in_progress", "done", "Open", "Drafted",
   "RequiresClarification", "Ready", "Done"]

/-- Store after one `createTask` call on the empty store. -/
def c1Store1 : Store := (createTask emptyStore "task" "A" "D" "Открыта").2

/-- Code of the first task created from the empty store. -/
def c1FirstCode : String := (createTask emptyStore "task" "A" "D" "Открыта").1.code

/-- Code of the second task created in sequence. -/
def c1SecondCode : String := (createTask c1Store1 "task" "B" "D" "Открыта").1.code

/-- Store after creating `TASK-0001` and deleting it again. -/
def c1StoreAfterDelete : Store := (deleteTask c1Store1 1).2

/-- Code allocated by a create following that deletion. -/
def c1ReuseCode : String :=
  (createTask c1StoreAfterDelete "task" "C" "D" "Открыта").1.code

/-- First save of the C2 scenario (no artifact id: fresh artifact). -/
def c2Input1 : SaveArtifactInput :=
  { title := "Документ", kind := "text", category := "functional_requirement",
    format := "markdown", content := "v1" }

/-- Store after the first save. -/
def c2Store1 : Store := (saveArtifactWithVersion emptyStore c2Input1).2

/-- Store after a second save addressed at the same artifact. -/
def c2Store2 : Store :=
  (saveArtifactWithVersion c2Store1
    { c2Input1 with artifactId := some 1, content := "v2" }).2

/-- Four tasks created in sequence, no links yet. -/
def c3Store : Store :=
  (createTask
    (createTask
      (createTask
        (createTask emptyStore "task" "T1" "D" "Открыта").2
        "task" "T2" "D" "Открыта").2
      "task" "T3" "D" "Открыта").2
    "task" "T4" "D" "Открыта").2

/-- Two tasks `TASK-0001`, `TASK-0002` (ids 1 and 2). -/
def c4Store : Store :=
  (createTask (createTask emptyStore "task" "A" "D" "Открыта").2
    "task" "B" "D" "Открыта").2

/-- A payload carrying only a relation change: set parents of the task
to `[2]`. -/
def c4Payload : UpdatePayload := { parentIds := some [2] }

/-- A store holding exactly the task `TASK-0001` (id 1). -/
def c5Store : Store := (createTask emptyStore "task" "A" "D" "Открыта").2

/-- The first-save input of the C6 scenario: no explicit sources. -/
def c6Input1 : SaveArtifactInput :=
  { title := "Сценарий", kind := "text", category := "user_scenario",
    format := "markdown", content := "v1" }

/-- Store after one sourceless save from the empty store. -/
def c6Store1 : Store := (saveArtifactWithVersion emptyStore c6Input1).2

/-- Store after a second sourceless save on the same artifact. -/
def c6Store2 : Store :=
  (saveArtifactWithVersion c6Store1
    { c6Input1 with artifactId := some 1, content := "v2" }).2

/-- A store holding one artifact (id 1) and nothing else. -/
def c6WitStore : Store :=
  (upsertArtifactRecord emptyStore none "Doc" "text" "user_scenario").2

/-- Store with one artifact and one version row (id 1), from one save. -/
def c7Store : Store :=
  (saveArtifactWithVersion emptyStore
    { title := "Экспорт", kind := "text", category := "acceptance_criteria",
      format := "markdown", content := "v1" }).2

/-- A populated store: two tasks, one edge, and an artifact whose
version, export and task-typed provenance row reference task 1. -/
def c10Store : Store :=
  { tasks := [⟨1, "task", "T1", "D", "Открыта", "TASK-0001", 0⟩,
              ⟨2, "task", "T2", "D", "Открыта", "TASK-0002", 1⟩],
    links := [⟨1, 2⟩],
    artifacts := [⟨1, "Doc", "text", "user_scenario", 2⟩],
    versions := [⟨1, 1, 1, "markdown", "v1", none, none, 3⟩],
    sources := [⟨1, 1, "task", some 1, none, 4⟩],
    exports := [⟨1, 1, "markdown", some "v1", none, 5⟩],
    nextTaskId := 3, nextArtifactId := 2, nextVersionId := 2,
    nextSourceId := 2, nextExportId := 2, clock := 6 }

theorem le_foldl_max (l : List Int) (a : Int) : a ≤ l.foldl max a := by
  induction l generalizing a with
  | nil => simp
  | cons x xs ih => exact le_trans (le_max_left a x) (ih (max a x))

theorem mem_le_foldl_max (l : List Int) (a x : Int) (hx : x ∈ l) :
    x ≤ l.foldl max a := by
  induction l generalizing a with
  | nil => cases hx
  | cons y ys ih =>
    rcases List.mem_cons.mp hx with h | h
    · subst h
      exact le_trans (le_max_right a x) (le_foldl_max ys (max a x))
    · exact ih (max a y) h

theorem mem_le_sqlMaxInt (l : List Int) (x : Int) (hx : x ∈ l) :
    x ≤ (sqlMaxInt l).getD 0 := by
  cases l with
  | nil => cases hx
  | cons y ys =>
    simp only [sqlMaxInt, Option.getD_some]
    rcases List.mem_cons.mp hx with h | h
    · subst h; exact le_foldl_max ys x
    · exact mem_le_foldl_max ys y x h

theorem mem_insertIgnoreLink (ls : List LinkRow) (p c : Int) (l : LinkRow) :
    l ∈ insertIgnoreLink ls p c ↔ l ∈ ls ∨ l = ⟨p, c⟩ := by
  unfold insertIgnoreLink
  split
  case isTrue h =>
    rcases List.any_eq_true.mp h with ⟨l', hl', hpc⟩
    rw [Bool.and_eq_true, beq_iff_eq, beq_iff_eq] at hpc
    have hl'eq : l' = ⟨p, c⟩ := by
      cases l'; cases hpc.1; cases hpc.2; rfl
    constructor
    · exact Or.inl
    · rintro (h' | rfl)
      · exact h'
      · rwa [← hl'eq]
  case isFalse h =>
    simp [List.mem_append]

theorem mem_addParentLinks (taskId : Int) (ps : List Int)
    (ls : List LinkRow) (l : LinkRow) :
    l ∈ addParentLinks taskId ps ls ↔
      l ∈ ls ∨ (l.childId = taskId ∧ l.parentId ∈ ps ∧ l.parentId ≠ taskId) := by
  induction ps generalizing ls with
  | nil => simp [addParentLinks]
  | cons p ps ih =>
    unfold addParentLinks
    rw [ih]
    by_cases hp : p = taskId
    · subst hp
      simp only [beq_self_eq_true, if_true, List.mem_cons]
      constructor
      · rintro (h | ⟨h1, h2, h3⟩)
        · exact Or.inl h
        · exact Or.inr ⟨h1, Or.inr h2, h3⟩
      · rintro (h | ⟨h1, h2 | h2, h3⟩)
        · exact Or.inl h
        · exact absurd h2 h3
        · exact Or.inr ⟨h1, h2, h3⟩
    · rw [if_neg (by simpa using hp), mem_insertIgnoreLink]
      cases l with
      | mk lp lc =>
        simp only [List.mem_cons, LinkRow.mk.injEq]
        constructor
        · rintro ((h | ⟨h1, h2⟩) | ⟨h1, h2, h3⟩)
          · exact Or.inl h
          · exact Or.inr ⟨h2, Or.inl h1, h1 ▸ hp⟩
          · exact Or.inr ⟨h1, Or.inr h2, h3⟩
        · rintro (h | ⟨h1, h2 | h2, h3⟩)
          · exact Or.inl (Or.inl h)
          · exact Or.inl (Or.inr ⟨h2, h1⟩)
          · exact Or.inr ⟨h1, h2, h3⟩

theorem mem_addChildLinks (taskId : Int) (cs : List Int)
    (ls : List LinkRow) (l : LinkRow) :
    l ∈ addChildLinks taskId cs ls ↔
      l ∈ ls ∨ (l.parentId = taskId ∧ l.childId ∈ cs ∧ l.childId ≠ taskId) := by
  induction cs generalizing ls with
  | nil => simp [addChildLinks]
  | cons c cs ih =>
    unfold addChildLinks
    rw [ih]
    by_cases hc : c = taskId
    · subst hc
      simp only [beq_self_eq_true, if_true, List.mem_cons]
      constructor
      · rintro (h | ⟨h1, h2, h3⟩)
        · exact Or.inl h
        · exact Or.inr ⟨h1, Or.inr h2, h3⟩
      · rintro (h | ⟨h1, h2 | h2, h3⟩)
        · exact Or.inl h
        · exact absurd h2 h3
        · exact Or.inr ⟨h1, h2, h3⟩
    · rw [if_neg (by simpa using hc), mem_insertIgnoreLink]
      cases l with
      | mk lp lc =>
        simp only [List.mem_cons, LinkRow.mk.injEq]
        constructor
        · rintro ((h | ⟨h1, h2⟩) | ⟨h1, h2, h3⟩)
          · exact Or.inl h
          · exact Or.inr ⟨h1, Or.inl h2, h2 ▸ hc⟩
          · exact Or.inr ⟨h1, Or.inr h2, h3⟩
        · rintro (h | ⟨h1, h2 | h2, h3⟩)
          · exact Or.inl (Or.inl h)
          · exact Or.inl (Or.inr ⟨h1, h2⟩)
          · exact Or.inr ⟨h1, h2, h3⟩

theorem lookupStr_eq_none (l : List (String × String)) (key : String)
    (h : key ∉ l.map Prod.fst) : lookupStr l key = none := by
  induction l with
  | nil => rfl
  | cons p rest ih =>
    simp only [List.map_cons, List.mem_cons, not_or] at h
    cases p with
    | mk k v =>
      unfold lookupStr
      rw [if_neg (fun e => h.1 (by simpa using e.symm))]
      exact ih h.2

theorem sourcesFor_appendSource_same (s : Store) (aid : Int) (ty : String)
    (sid : Option Int) (d : Option String) :
    sourcesFor (appendSource s aid ty sid d) aid
      = sourcesFor s aid ++ [mkSourceRow s aid ty sid d] := by
  unfold sourcesFor appendSource
  rw [List.filter_append]
  simp [mkSourceRow]

theorem insertTaskSources_sources_len (aid : Int) (ids : List Int) (s : Store) :
    (sourcesFor (insertTaskSources aid ids s) aid).length
      = (sourcesFor s aid).length + ids.length := by
  induction ids generalizing s with
  | nil => simp [insertTaskSources]
  | cons i ids ih =>
    unfold insertTaskSources
    rw [ih, sourcesFor_appendSource_same]
    simp
    omega

theorem insertMessageSources_sources_len (aid : Int) (ids : List Int)
    (s : Store) :
    (sourcesFor (insertMessageSources aid ids s) aid).length
      = (sourcesFor s aid).length + ids.length := by
  induction ids generalizing s with
  | nil => simp [insertMessageSources]
  | cons i ids ih =>
    unfold insertMessageSources
    rw [ih, sourcesFor_appendSource_same]
    simp
    omega

theorem upsert_versions_eq (s : Store) (idOpt : Option Int)
    (t k c : String) :
    (upsertArtifactRecord s idOpt t k c).2.versions = s.versions := by
  unfold upsertArtifactRecord
  split
  · split <;> rfl
  · rfl

theorem insertTaskSources_versions (aid : Int) (ids : List Int) (s : Store) :
    (insertTaskSources aid ids s).versions = s.versions := by
  induction ids generalizing s with
  | nil => rfl
  | cons i ids ih => rw [insertTaskSources, ih]; rfl

theorem insertMessageSources_versions (aid : Int) (ids : List Int)
    (s : Store) :
    (insertMessageSources aid ids s).versions = s.versions := by
  induction ids generalizing s with
  | nil => rfl
  | cons i ids ih => rw [insertMessageSources, ih]; rfl

theorem attach_versions_eq (s : Store) (aid : Int)
    (t m : Option (List Int)) :
    (attachArtifactSources s aid t m).2.versions = s.versions := by
  unfold attachArtifactSources
  split
  · rfl
  · split
    · split
      · show (appendSource _ _ _ _ _).versions = s.versions
        unfold appendSource
        show (insertMessageSources _ _ (insertTaskSources _ _ s)).versions = _
        rw [insertMessageSources_versions, insertTaskSources_versions]
      · show (insertMessageSources _ _ (insertTaskSources _ _ s)).versions = _
        rw [insertMessageSources_versions, insertTaskSources_versions]
    · show (insertMessageSources _ _ (insertTaskSources _ _ s)).versions = _
      rw [insertMessageSources_versions, insertTaskSources_versions]

theorem maxVersionFor_eq_fold (vs : List VersionRow) (aid : Int) :
    maxVersionFor vs aid = (versionNums vs aid).foldl max 0 := rfl

theorem foldl_max_range' (n : Nat) : (List.range' 1 n).foldl max 0 = n := by
  induction n with
  | zero => rfl
  | succ n ih =>
    rw [List.range'_concat, List.foldl_append, ih]
    simp
    omega

theorem versionNums_append_same (vs : List VersionRow) (v : VersionRow)
    (aid : Int) (h : v.artifactId = aid) :
    versionNums (vs ++ [v]) aid = versionNums vs aid ++ [v.version] := by
  unfold versionNums
  rw [List.filter_append, List.map_append]
  simp [h]

theorem versionNums_append_other (vs : List VersionRow) (v : VersionRow)
    (aid : Int) (h : v.artifactId ≠ aid) :
    versionNums (vs ++ [v]) aid = versionNums vs aid := by
  unfold versionNums
  rw [List.filter_append]
  simp [h]

/-- C1: `createTask` allocates codes by scanning the codes under the
`TASK-` prefix, extracting the numeric suffix after the first separator,
taking the maximum (0 when none), adding 1 and zero-padding to 4 digits;
the allocated suffix strictly exceeds every existing one (so create-only
histories have strictly increasing codes, `TASK-0001` then `TASK-0002`
from the empty store), and after deleting the task holding the highest
code the next create reuses its numeric suffix. -/
theorem createTask_code_allocation :
    (∀ (s : Store) (ty ti de st : String),
        (createTask s ty ti de st).1.code
          = "TASK-" ++
              padStart4 (toString ((sqlMaxInt (taskSuffixInts s.tasks)).getD 0 + 1))
        ∧ ∀ t ∈ s.tasks, likeTaskCode t.code = true →
            taskCodeNumber t.code < nextTaskNumber s.tasks)
    ∧ c1FirstCode = "TASK-0001"
    ∧ c1SecondCode = "TASK-0002"
    ∧ c1ReuseCode = "TASK-0001" := by
  refine ⟨fun s ty ti de st => ⟨rfl, ?_⟩, by decide, by decide, by decide⟩
  intro t ht hlike
  have hmem : taskCodeNumber t.code ∈ taskSuffixInts s.tasks := by
    unfold taskSuffixInts
    exact List.mem_map_of_mem _ (List.mem_filter.mpr ⟨ht, hlike⟩)
  have hle := mem_le_sqlMaxInt _ _ hmem
  unfold nextTaskNumber
  omega

/-- Witness for C1: the general allocation facts instantiated on the
store holding exactly `TASK-0001`. -/
theorem createTask_code_allocation_witness :
    (createTask c1Store1 "task" "B" "D" "Открыта").1.code
      = "TASK-" ++
          padStart4 (toString ((sqlMaxInt (taskSuffixInts c1Store1.tasks)).getD 0 + 1))
    ∧ taskCodeNumber (createTask emptyStore "task" "A" "D" "Открыта").1.code
        < nextTaskNumber c1Store1.tasks := by
  refine ⟨(createTask_code_allocation.1 c1Store1 "task" "B" "D" "Открыта").1, ?_⟩
  exact (createTask_code_allocation.1 c1Store1 "task" "B" "D" "Открыта").2
    (createTask emptyStore "task" "A" "D" "Открыта").1 (by decide) (by decide)

/-- C2: a successful `saveArtifactWithVersion` appends exactly one new
version row numbered `max(existing version for this artifact) + 1` and
never rewrites a prior row, so per-artifact version numbers stay the
contiguous insertion-ordered run `1..n`; concretely two saves on the same
artifact produce versions `[1, 2]` and the latest-snapshot projection
returns the version-2 content. -/
theorem saveArtifactWithVersion_appends_next_version :
    (∀ (s : Store) (input : SaveArtifactInput) (snap : ArtifactSnapshot)
        (s' : Store),
        saveArtifactWithVersion s input = (Except.ok snap, s') →
        ∃ v : VersionRow,
          s'.versions = s.versions ++ [v] ∧
          v.version = maxVersionFor s.versions v.artifactId + 1)
    ∧ (∀ (s : Store) (input : SaveArtifactInput) (snap : ArtifactSnapshot)
        (s' : Store) (aid : Int),
        saveArtifactWithVersion s input = (Except.ok snap, s') →
        versionNums s.versions aid
          = List.range' 1 (versionNums s.versions aid).length →
        versionNums s'.versions aid
          = List.range' 1 (versionNums s'.versions aid).length)
    ∧ versionNums c2Store1.versions 1 = [1]
    ∧ versionNums c2Store2.versions 1 = [1, 2]
    ∧ (listLatestArtifacts c2Store2).map
        (fun p => (p.artifactId, p.version, p.content)) = [(1, 2, "v2")] := by
  have hmain : ∀ (s : Store) (input : SaveArtifactInput)
      (snap : ArtifactSnapshot) (s' : Store),
      saveArtifactWithVersion s input = (Except.ok snap, s') →
      ∃ v : VersionRow,
        s'.versions = s.versions ++ [v] ∧
        v.version = maxVersionFor s.versions v.artifactId + 1 := by
    intro s input snap s' h
    unfold saveArtifactWithVersion at h
    by_cases hc : strTrim input.content = ""
    · rw [if_pos hc] at h
      exact absurd h (by simp)
    · rw [if_neg hc] at h
      by_cases ht : strTrim input.title = ""
      · rw [if_pos ht] at h
        exact absurd h (by simp)
      · rw [if_neg ht] at h
        rcases hcat : normalizeCategory input.category with e | normalized
        · rw [hcat] at h
          exact absurd h (by simp)
        · rw [hcat] at h
          dsimp only at h
          rcases hup : upsertArtifactRecord s input.artifactId
            (strTrim input.title) input.kind normalized with ⟨res1, s1⟩
          rw [hup] at h
          rcases res1 with e | aid
          · exact absurd h (by simp)
          · dsimp only at h
            rcases hat : attachArtifactSources
              (insertVersionRow s1 aid input.format (strTrim input.content)
                input.renderUrl input.note)
              aid input.sourceTaskIds input.sourceMessageIds with ⟨res2, s3⟩
            rw [hat] at h
            rcases res2 with e | u
            · exact absurd h (by simp)
            · dsimp only at h
              rcases hsnap : getLatestArtifactSnapshot s3 aid with _ | snap2
              · rw [hsnap] at h
                exact absurd h (by simp)
              · rw [hsnap] at h
                dsimp only at h
                have hs3 : s3 = s' := congrArg Prod.snd h
                have hvers :
                    s3.versions = s1.versions ++
                      [mkVersionRow s1 aid input.format (strTrim input.content)
                        input.renderUrl input.note] := by
                  have hv := attach_versions_eq
                    (insertVersionRow s1 aid input.format (strTrim input.content)
                      input.renderUrl input.note)
                    aid input.sourceTaskIds input.sourceMessageIds
                  rw [hat] at hv
                  exact hv
                have hs1 : s1.versions = s.versions := by
                  have hu := upsert_versions_eq s input.artifactId
                    (strTrim input.title) input.kind normalized
                  rw [hup] at hu
                  exact hu
                refine ⟨mkVersionRow s1 aid input.format (strTrim input.content)
                  input.renderUrl input.note, ?_, ?_⟩
                · rw [← hs3, hvers, hs1]
                · show maxVersionFor s1.versions aid + 1
                    = maxVersionFor s.versions aid + 1
                  rw [hs1]
  refine ⟨hmain, ?_, by decide, by decide, by decide⟩
  intro s input snap s' aid h hcont
  obtain ⟨v, hv1, hv2⟩ := hmain s input snap s' h
  by_cases haid : v.artifactId = aid
  · have hn : v.version = (versionNums s.versions aid).length + 1 := by
      rw [hv2, haid, maxVersionFor_eq_fold, hcont, foldl_max_range']
      simp
    rw [hv1, versionNums_append_same _ _ _ haid, hn]
    have hlen : (versionNums s.versions aid
        ++ [(versionNums s.versions aid).length + 1]).length
        = (versionNums s.versions aid).length + 1 := by simp
    rw [hlen, List.range'_concat]
    conv_rhs => rw [← hcont]
    simp [Nat.add_comm]
  · rw [hv1, versionNums_append_other _ _ _ haid]
    exact hcont

/-- Witness for C2: the append/next-number fact and contiguity
preservation instantiated on the concrete second save. -/
theorem saveArtifactWithVersion_appends_next_version_witness :
    (∃ v : VersionRow,
        c2Store2.versions = c2Store1.versions ++ [v] ∧
        v.version = maxVersionFor c2Store1.versions v.artifactId + 1)
    ∧ versionNums c2Store2.versions 1
        = List.range' 1 (versionNums c2Store2.versions 1).length := by
  constructor
  · exact saveArtifactWithVersion_appends_next_version.1 c2Store1
      { c2Input1 with artifactId := some 1, content := "v2" }
      (saveArtifactWithVersion c2Store1
        { c2Input1 with artifactId := some 1, content := "v2" }).1.toOption.get!
      c2Store2 (by decide)
  · exact saveArtifactWithVersion_appends_next_version.2.1 c2Store1
      { c2Input1 with artifactId := some 1, content := "v2" }
      (saveArtifactWithVersion c2Store1
        { c2Input1 with artifactId := some 1, content := "v2" }).1.toOption.get!
      c2Store2 1 (by decide) (by decide)

/-- C3: `setTaskRelations` treats each supplied direction as a replace:
all edges of that direction for the task are deleted, then each listed id
becomes an edge, skipping self-references and ignoring duplicates;
a direction passed as `undefined` is left untouched.  Replacing parents
`[2, 3]` by `[4]` leaves exactly the edge from 4, and `children = [id]`
yields zero outgoing edges. -/
theorem setTaskRelations_replaces_directions :
    (∀ (s : Store) (taskId : Int) (ps : List Int) (l : LinkRow),
        l ∈ (setTaskRelations s taskId (some ps) none).links ↔
          (l ∈ s.links ∧ l.childId ≠ taskId) ∨
            (l.childId = taskId ∧ l.parentId ∈ ps ∧ l.parentId ≠ taskId))
    ∧ (∀ (s : Store) (taskId : Int) (cs : List Int) (l : LinkRow),
        l ∈ (setTaskRelations s taskId none (some cs)).links ↔
          (l ∈ s.links ∧ l.parentId ≠ taskId) ∨
            (l.parentId = taskId ∧ l.childId ∈ cs ∧ l.childId ≠ taskId))
    ∧ (∀ (s : Store) (taskId : Int), setTaskRelations s taskId none none = s)
    ∧ (setTaskRelations (setTaskRelations c3Store 1 (some [2, 3]) none) 1
         (some [4]) none).links.filter (fun l => l.childId == 1) = [⟨4, 1⟩]
    ∧ (setTaskRelations c3Store 1 none
         (some [1])).links.filter (fun l => l.parentId == 1) = [] := by
  refine ⟨?_, ?_, ?_, by decide, by decide⟩
  · intro s taskId ps l
    show l ∈ addParentLinks taskId ps
        (s.links.filter (fun l => !(l.childId == taskId))) ↔ _
    rw [mem_addParentLinks]
    simp [List.mem_filter]
  · intro s taskId cs l
    show l ∈ addChildLinks taskId cs
        (s.links.filter (fun l => !(l.parentId == taskId))) ↔ _
    rw [mem_addChildLinks]
    simp [List.mem_filter]
  · intro s taskId
    rfl

/-- Witness for C3: the replacement characterizations instantiated on the
concrete four-task store. -/
theorem setTaskRelations_replaces_directions_witness :
    ((⟨4, 1⟩ : LinkRow) ∈ (setTaskRelations c3Store 1 (some [2, 4]) none).links)
    ∧ ((⟨1, 3⟩ : LinkRow) ∈ (setTaskRelations c3Store 1 none (some [3])).links) := by
  constructor
  · exact (setTaskRelations_replaces_directions.1 c3Store 1 [2, 4] ⟨4, 1⟩).mpr
      (by decide)
  · exact (setTaskRelations_replaces_directions.2.1 c3Store 1 [3] ⟨1, 3⟩).mpr
      (by decide)

/-- C4 (failing part): a payload supplying only relation changes passes
the service-level emptiness guard, but the unconditional store call then
throws its own `no fields to update` error, which the service maps to
neither ValidationError nor NotFound — the call fails instead of
succeeding, and no relation change is applied. -/
theorem tasksServiceUpdate_relations_only_fails :
    tasksServiceUpdate c4Store 1 c4Payload
      = (Except.error (SvcError.internal "Нет полей для обновления"), c4Store)
    ∧ (tasksServiceUpdate c4Store 1 c4Payload).2.links = [] := by
  constructor
  · decide
  · decide

/-- C5: when any requested source task id does not resolve,
`attachArtifactSources` fails with the error naming exactly the missing
ids, and the store is completely unchanged — no task-typed or
message-typed source row is inserted by the call. -/
theorem attachArtifactSources_missing_ids_rejected :
    ∀ (s : Store) (aid : Int) (taskIds messageIds : Option (List Int)),
      (positiveIds taskIds).filter (fun i => !(taskIdExists s.tasks i)) ≠ [] →
      attachArtifactSources s aid taskIds messageIds =
        (Except.error ("Задачи с такими ID не найдены: " ++
            joinIds ((positiveIds taskIds).filter
              (fun i => !(taskIdExists s.tasks i)))),
         s) := by
  intro s aid taskIds messageIds hmiss
  have htasks : positiveIds taskIds ≠ [] := by
    intro he
    apply hmiss
    rw [he]
    rfl
  unfold attachArtifactSources
  split
  · rfl
  case isFalse hcond => exact absurd ⟨htasks, hmiss⟩ hcond

/-- Witness for C5: attaching sources `[1, 2]` with only task 1 existing
fails naming id 2 and leaves the single-task store untouched. -/
theorem attachArtifactSources_missing_ids_rejected_witness :
    attachArtifactSources c5Store 7 (some [1, 2]) (some [9]) =
      (Except.error ("Задачи с такими ID не найдены: " ++ joinIds [2]), c5Store) := by
  exact attachArtifactSources_missing_ids_rejected c5Store 7 (some [1, 2])
    (some [9]) (by decide)

/-- C6: an attach with no effective task or message ids inserts exactly
one synthetic manual source row when the artifact has zero source rows
and nothing otherwise; every successful attach leaves the artifact with
at least one source row; concretely, after two sourceless saves the
artifact's source rows are exactly one `manual` row. -/
theorem attachArtifactSources_manual_source_fallback :
    (∀ (s : Store) (aid : Int) (t m : Option (List Int)),
        positiveIds t = [] → positiveIds m = [] →
        (sourcesFor s aid = [] →
            attachArtifactSources s aid t m =
              (Except.ok (),
               appendSource s aid "manual" none (some MANUAL_SOURCE_DESCRIPTION)))
        ∧ (sourcesFor s aid ≠ [] →
            attachArtifactSources s aid t m = (Except.ok (), s)))
    ∧ (∀ (s : Store) (aid : Int) (t m : Option (List Int)),
        (attachArtifactSources s aid t m).1 = Except.ok () →
        sourcesFor (attachArtifactSources s aid t m).2 aid ≠ [])
    ∧ (sourcesFor c6Store2 1).map (fun r => r.sourceType) = ["manual"] := by
  refine ⟨?_, ?_, by decide⟩
  · intro s aid t m ht hm
    have hcond : ¬(positiveIds t ≠ [] ∧
        (positiveIds t).filter (fun i => !(taskIdExists s.tasks i)) ≠ []) := by
      intro hc
      exact hc.1 ht
    constructor
    · intro hnone
      unfold attachArtifactSources
      rw [if_neg hcond, if_pos ⟨ht, hm⟩, ht, hm]
      simp only [insertTaskSources, insertMessageSources]
      rw [if_pos (by rw [hnone]; rfl)]
    · intro hsome
      unfold attachArtifactSources
      rw [if_neg hcond, if_pos ⟨ht, hm⟩, ht, hm]
      simp only [insertTaskSources, insertMessageSources]
      rw [if_neg (by
        intro hlen
        exact hsome (List.length_eq_zero.mp hlen))]
  · intro s aid t m hok
    unfold attachArtifactSources at hok ⊢
    by_cases h1 : positiveIds t ≠ [] ∧
        (positiveIds t).filter (fun i => !(taskIdExists s.tasks i)) ≠ []
    · rw [if_pos h1] at hok
      simp at hok
    · rw [if_neg h1] at hok ⊢
      by_cases h2 : positiveIds t = [] ∧ positiveIds m = []
      · rw [if_pos h2] at hok ⊢
        by_cases h3 : (sourcesFor (insertMessageSources aid (positiveIds m)
            (insertTaskSources aid (positiveIds t) s)) aid).length = 0
        · rw [if_pos h3]
          rw [show ((Except.ok (), appendSource (insertMessageSources aid
              (positiveIds m) (insertTaskSources aid (positiveIds t) s)) aid
              "manual" none (some MANUAL_SOURCE_DESCRIPTION)) :
              Except String Unit × Store).2 = appendSource (insertMessageSources
              aid (positiveIds m) (insertTaskSources aid (positiveIds t) s)) aid
              "manual" none (some MANUAL_SOURCE_DESCRIPTION) from rfl]
          rw [sourcesFor_appendSource_same]
          simp
        · rw [if_neg h3]
          intro hnil
          rw [hnil] at h3
          exact h3 rfl
      · rw [if_neg h2]
        intro hnil
        have hlen := insertMessageSources_sources_len aid (positiveIds m)
          (insertTaskSources aid (positiveIds t) s)
        rw [insertTaskSources_sources_len] at hlen
        rw [hnil] at hlen
        have ht0 : (positiveIds t).length = 0 ∧ (positiveIds m).length = 0 := by
          simp at hlen
          omega
        exact h2 ⟨List.length_eq_zero.mp ht0.1, List.length_eq_zero.mp ht0.2⟩

/-- Witness for C6: the fallback equations instantiated on the
one-artifact store, plus the non-emptiness fact after that attach. -/
theorem attachArtifactSources_manual_source_fallback_witness :
    attachArtifactSources c6WitStore 1 none none =
      (Except.ok (),
       appendSource c6WitStore 1 "manual" none (some MANUAL_SOURCE_DESCRIPTION))
    ∧ sourcesFor (attachArtifactSources c6WitStore 1 none none).2 1 ≠ [] := by
  constructor
  · exact (attachArtifactSources_manual_source_fallback.1 c6WitStore 1 none none
      rfl rfl).1 (by decide)
  · exact attachArtifactSources_manual_source_fallback.2.1 c6WitStore 1 none none
      (by decide)

/-- C7: `addArtifactExport` fails when content and location are both
blank after trimming; fails with the not-found error when the version id
does not resolve (store unchanged in both cases); otherwise inserts
exactly one export row holding the trimmed content and location (null for
an absent field) and returns its generated id.  A call with only a
location succeeds. -/
theorem addArtifactExport_contract :
    (∀ (s : Store) (vid : Int) (fmt : String) (content location : Option String),
        optTruthyTrim content = false → optTruthyTrim location = false →
        addArtifactExport s vid fmt content location =
          (Except.error "Экспорт должен содержать данные или ссылку на хранилище",
           s))
    ∧ (∀ (s : Store) (vid : Int) (fmt : String) (content location : Option String),
        (optTruthyTrim content || optTruthyTrim location) = true →
        s.versions.any (fun v => v.id == vid) = false →
        addArtifactExport s vid fmt content location =
          (Except.error ("Версия артефакта " ++ toString vid ++ " не найдена"),
           s))
    ∧ (∀ (s : Store) (vid : Int) (fmt : String) (content location : Option String),
        (optTruthyTrim content || optTruthyTrim location) = true →
        s.versions.any (fun v => v.id == vid) = true →
        addArtifactExport s vid fmt content location =
          (Except.ok s.nextExportId, exportInserted s vid fmt content location))
    ∧ (addArtifactExport c7Store 1 "png" none (some " render.png ")).1
        = Except.ok 1
    ∧ (addArtifactExport c7Store 1 "png" none
         (some " render.png ")).2.exports.map
           (fun e => (e.artifactVersionId, e.content, e.location))
        = [(1, none, some "render.png")] := by
  refine ⟨?_, ?_, ?_, by decide, by decide⟩
  · intro s vid fmt content location hc hl
    unfold addArtifactExport
    rw [if_pos (by rw [hc, hl]; rfl)]
  · intro s vid fmt content location hsome habsent
    unfold addArtifactExport
    rw [if_neg (by rw [hsome]; simp), if_neg (by rw [habsent]; simp)]
  · intro s vid fmt content location hsome hpresent
    unfold addArtifactExport
    rw [if_neg (by rw [hsome]; simp), if_pos (by rw [hpresent])]

/-- Witness for C7: the three branches instantiated on the one-version
store. -/
theorem addArtifactExport_contract_witness :
    addArtifactExport c7Store 1 "png" (some "  ") none =
      (Except.error "Экспорт должен содержать данные или ссылку на хранилище",
       c7Store)
    ∧ addArtifactExport c7Store 99 "png" (some "body") none =
        (Except.error ("Версия артефакта " ++ toString (99 : Int) ++ " не найдена"),
         c7Store)
    ∧ addArtifactExport c7Store 1 "docx" (some " body ") none =
        (Except.ok c7Store.nextExportId,
         exportInserted c7Store 1 "docx" (some " body ") none) := by
  refine ⟨?_, ?_, ?_⟩
  · exact addArtifactExport_contract.1 c7Store 1 "png" (some "  ") none
      (by decide) (by decide)
  · exact addArtifactExport_contract.2.1 c7Store 99 "png" (some "body") none
      (by decide) (by decide)
  · exact addArtifactExport_contract.2.2.1 c7Store 1 "docx" (some " body ") none
      (by decide) (by decide)

/-- C8: `normalizeCategory` maps each accepted alias (including the
`entity_diagram`/`er_diagram` synonym pair) to one canonical lowercase
value and rejects every other input; `toExternalCategory` maps canonical
values to the uppercase external vocabulary; and the pair is not a clean
inverse: the accepted alias `er_diagram` round-trips to
`ENTITY_DIAGRAM` ≠ `er_diagram`. -/
theorem normalizeCategory_alias_table :
    (∀ p ∈ NORMALIZE_MAP,
        normalizeCategory p.1 = Except.ok p.2 ∧ p.2 ∈ CANONICAL_CATEGORIES)
    ∧ (∀ c : String, c ∉ NORMALIZE_MAP.map Prod.fst →
        normalizeCategory c =
          Except.error ("Неподдерживаемая категория артефакта: " ++ c))
    ∧ toExternalCategory "use_case_diagram" = "USE_CASE_DIAGRAM"
    ∧ toExternalCategory "er_diagram" = "ENTITY_DIAGRAM"
    ∧ toExternalCategory "entity_diagram" = "ENTITY_DIAGRAM"
    ∧ toExternalCategory "user_scenario" = "USER_SCENARIO"
    ∧ toExternalCategory "functional_requirement" = "FUNCTIONAL_REQUIREMENTS"
    ∧ toExternalCategory "non_functional_requirement"
        = "NON_FUNCTIONAL_REQUIREMENTS"
    ∧ toExternalCategory "acceptance_criteria" = "ACCEPTANCE_CRITERIA"
    ∧ normalizeCategory "er_diagram" = Except.ok "er_diagram"
    ∧ toExternalCategory "er_diagram" ≠ "er_diagram" := by
  refine ⟨by decide, ?_, by decide, by decide, by decide, by decide,
    by decide, by decide, by decide, by decide, by decide⟩
  intro c h
  unfold normalizeCategory
  rw [lookupStr_eq_none _ _ h]

/-- Witness for C8: the alias table instantiated at the synonym pair and
at a rejected input. -/
theorem normalizeCategory_alias_table_witness :
    normalizeCategory "entity_diagram" = Except.ok "er_diagram"
    ∧ normalizeCategory "diagram" =
        Except.error ("Неподдерживаемая категория артефакта: " ++ "diagram") := by
  constructor
  · exact (normalizeCategory_alias_table.1 ("entity_diagram", "er_diagram")
      (by decide)).1
  · exact normalizeCategory_alias_table.2.1 "diagram" (by decide)

/-- C9: the migration copy preserves id, type, title, description, code
and created timestamp of every row and rewrites status through the fixed
remapping table, sending every unlisted status value — whatever it is —
to the default initial status `Открыта`. -/
theorem migration_copies_rows_remapping_status :
    (∀ (rows : List TaskRow) (i : Nat) (t t' : TaskRow),
        rows[i]? = some t → (migrateTaskRows rows)[i]? = some t' →
        t'.id = t.id ∧ t'.type = t.type ∧ t'.title = t.title
          ∧ t'.description = t.description ∧ t'.code = t.code
          ∧ t'.createdAt = t.createdAt ∧ t'.status = remapStatus t.status)
    ∧ (∀ rows : List TaskRow, (migrateTaskRows rows).length = rows.length)
    ∧ remapStatus "backlog" = "Открыта"
    ∧ remapStatus "in_progress" = "Готова к продолжению"
    ∧ remapStatus "done" = "Выполнена"
    ∧ remapStatus "Open" = "Открыта"
    ∧ remapStatus "Drafted" = "Декомпозирована"
    ∧ remapStatus "RequiresClarification" = "Требует уточнения"
    ∧ remapStatus "Ready" = "Готова к продолжению"
    ∧ remapStatus "Done" = "Выполнена"
    ∧ (∀ st : String, st ∉ OLD_STATUS_KEYS → remapStatus st = "Открыта") := by
  refine ⟨?_, ?_, by decide, by decide, by decide, by decide, by decide,
    by decide, by decide, by decide, ?_⟩
  · intro rows i t t' hti hti'
    unfold migrateTaskRows at hti'
    rw [List.getElem?_map, hti] at hti'
    simp only [Option.map_some'] at hti'
    rw [← Option.some.inj hti']
    exact ⟨rfl, rfl, rfl, rfl, rfl, rfl, rfl⟩
  · intro rows
    unfold migrateTaskRows
    exact List.length_map rows _
  · intro st hst
    simp only [OLD_STATUS_KEYS, List.mem_cons, List.mem_singleton, not_or]
      at hst
    obtain ⟨h1, h2, h3, h4, h5, h6, h7, h8, _⟩ := hst
    simp [remapStatus, h1, h2, h3, h4, h5, h6, h7, h8]

/-- Witness for C9: the row copy instantiated on a one-row table whose
status is the legacy `done`, and the unconditional default applied to a
value outside the remapping — the already-canonical label `Выполнена` is
itself sent back to `Открыта`. -/
theorem migration_copies_rows_remapping_status_witness :
    ((⟨1, "task", "T", "D", "Выполнена", "TASK-0001", 0⟩ : TaskRow).id
        = (⟨1, "task", "T", "D", "done", "TASK-0001", 0⟩ : TaskRow).id
      ∧ (⟨1, "task", "T", "D", "Выполнена", "TASK-0001", 0⟩ : TaskRow).type
        = (⟨1, "task", "T", "D", "done", "TASK-0001", 0⟩ : TaskRow).type
      ∧ (⟨1, "task", "T", "D", "Выполнена", "TASK-0001", 0⟩ : TaskRow).title
        = (⟨1, "task", "T", "D", "done", "TASK-0001", 0⟩ : TaskRow).title
      ∧ (⟨1, "task", "T", "D", "Выполнена", "TASK-0001", 0⟩ : TaskRow).description
        = (⟨1, "task", "T", "D", "done", "TASK-0001", 0⟩ : TaskRow).description
      ∧ (⟨1, "task", "T", "D", "Выполнена", "TASK-0001", 0⟩ : TaskRow).code
        = (⟨1, "task", "T", "D", "done", "TASK-0001", 0⟩ : TaskRow).code
      ∧ (⟨1, "task", "T", "D", "Выполнена", "TASK-0001", 0⟩ : TaskRow).createdAt
        = (⟨1, "task", "T", "D", "done", "TASK-0001", 0⟩ : TaskRow).createdAt
      ∧ (⟨1, "task", "T", "D", "Выполнена", "TASK-0001", 0⟩ : TaskRow).status
        = remapStatus (⟨1, "task", "T", "D", "done", "TASK-0001", 0⟩ : TaskRow).status)
    ∧ remapStatus "Выполнена" = "Открыта" := by
  constructor
  · exact migration_copies_rows_remapping_status.1
      [⟨1, "task", "T", "D", "done", "TASK-0001", 0⟩] 0
      ⟨1, "task", "T", "D", "done", "TASK-0001", 0⟩
      ⟨1, "task", "T", "D", "Выполнена", "TASK-0001", 0⟩ (by decide) (by decide)
  · exact migration_copies_rows_remapping_status.2.2.2.2.2.2.2.2.2.2 "Выполнена"
      (by decide)

/-- C10: deleting an existing task removes exactly the task row and the
edges touching it; `artifact_sources` rows — in particular task-typed
rows whose `source_id` is the deleted task id — survive as dangling
references (`source_id` carries no referential constraint), and
artifacts, versions and exports are untouched. -/
theorem deleteTask_removes_only_task_and_links :
    (∀ (s : Store) (id : Int), (∃ t ∈ s.tasks, t.id = id) →
        deleteTask s id =
          (Except.ok (),
           { s with
             links := s.links.filter
               (fun l => decide (l.parentId ≠ id ∧ l.childId ≠ id)),
             tasks := s.tasks.filter (fun t => decide (t.id ≠ id)) }))
    ∧ (∀ (s : Store) (id : Int) (src : SourceRow),
        src ∈ s.sources → src.sourceType = "task" → src.sourceId = some id →
        src ∈ (deleteTask s id).2.sources)
    ∧ (∀ (s : Store) (id : Int),
        (deleteTask s id).2.artifacts = s.artifacts
        ∧ (deleteTask s id).2.versions = s.versions
        ∧ (deleteTask s id).2.sources = s.sources
        ∧ (deleteTask s id).2.exports = s.exports) := by
  have hframe : ∀ (s : Store) (id : Int),
      (deleteTask s id).2.artifacts = s.artifacts
      ∧ (deleteTask s id).2.versions = s.versions
      ∧ (deleteTask s id).2.sources = s.sources
      ∧ (deleteTask s id).2.exports = s.exports := by
    intro s id
    unfold deleteTask
    split <;> exact ⟨rfl, rfl, rfl, rfl⟩
  refine ⟨?_, ?_, hframe⟩
  · intro s id hex
    rcases hex with ⟨t, ht, hid⟩
    unfold deleteTask
    rw [if_pos (List.any_eq_true.mpr ⟨t, ht, by simpa [beq_iff_eq] using hid⟩)]
  · intro s id src hsrc _ _
    rw [(hframe s id).2.2.1]
    exact hsrc

/-- Witness for C10: deleting task 1 preserves its dangling provenance
row, and the delete hits only the task and link tables. -/
theorem deleteTask_removes_only_task_and_links_witness :
    deleteTask c10Store 1 =
      (Except.ok (),
       { c10Store with
         links := c10Store.links.filter
           (fun l => decide (l.parentId ≠ 1 ∧ l.childId ≠ 1)),
         tasks := c10Store.tasks.filter (fun t => decide (t.id ≠ 1)) })
    ∧ (⟨1, 1, "task", some 1, none, 4⟩ : SourceRow)
        ∈ (deleteTask c10Store 1).2.sources := by
  constructor
  · exact deleteTask_removes_only_task_and_links.1 c10Store 1
      ⟨⟨1, "task", "T1", "D", "Открыта", "TASK-0001", 0⟩, by decide, rfl⟩
  · exact deleteTask_removes_only_task_and_links.2.1 c10Store 1
      ⟨1, 1, "task", some 1, none, 4⟩ (by decide) rfl rfl
